import Mathlib

/-!
# Verification of the PVD steganography codec (`src/lib/steganography.ts`)

Shallow embedding of the TypeScript source.  Conventions used throughout:

* JS strings are modelled as `List Nat` of their UTF-16 code units (`Str`).
* JS bit strings (strings of `'0'`/`'1'` characters) are `List Bool`,
  most significant bit first, `true` = `'1'`.
* JS numbers: all arithmetic appearing in the source is exact integer
  arithmetic well below 2^53, modelled with `Nat`/`Int`.  The two places the
  source computes with fractions are modelled by exact rational flooring:
  `Math.floor(prng() * k)` with `prng() = seed / 233280` is `seed * k / 233280`
  (Nat division), and `Math.floor(Math.sqrt(a / b))` is `floorSqrt (a / b)`
  (`⌊√⌊x⌋⌋ = ⌊√x⌋` for rationals).  The capacity test
  `totalMessage.length > estimatedCapacity * 0.9` with
  `estimatedCapacity = totalCapacity * (pairs.length / 100)` is the exact
  rational comparison `1000 * len > 9 * totalCapacity * pairs.length`.
* The pixel buffer is the RGBA `Uint8ClampedArray`, a total map from flat
  index to byte; the codec only ever touches indices of the form
  `(y * width + x) * 4 + 2` (blue channel).  Writes clamp into `[0,255]`
  exactly as `Uint8ClampedArray` does for the integer values produced here.
* `generatePixelPairs` at `width = 2, height = 1` divides by zero in JS
  (`maxPairs = 0`), producing `gridSize = Infinity`; with Nat semantics
  (`x / 0 = 0`) the function returns the same single pair `(0,0)-(1,0)`
  (the JS `Infinity` offsets are clamped back by `Math.min`), so the corner
  is modelled faithfully except for keys whose PRNG hits exactly 0 there.
-/

set_option maxRecDepth 1000000

/-- JS string as list of UTF-16 code units. -/
abbrev Str := List Nat

/-- Length with an accumulator that is forced at every step (the always-false
guard makes the evaluator normalise `acc + 1` eagerly), so that concrete
instances on long lists reduce in bounded stack space.  Provably equal to
`List.length` (see `jsLength_eq`); used wherever the source reads the O(1)
`.length` property of a long array or string. -/
def lenAux : List α → Nat → Nat
  | [], acc => acc
  | _ :: t, acc => if acc + 1 = 0 then 0 else lenAux t (acc + 1)

/-- `.length` of a JS array or string. -/
def jsLength (l : List α) : Nat :=
  lenAux l 0

/-- One row of the PVD range table (`PVDRange` in `Types/index.ts`). -/
structure PVDRange where
  min : Nat
  max : Nat
  capacity : Nat
deriving DecidableEq, Repr

/-- A pixel coordinate (`PixelPosition`). -/
structure PixelPosition where
  x : Nat
  y : Nat
deriving DecidableEq, Repr

/-- A pair of pixel coordinates (`PixelPair`). -/
structure PixelPair where
  pos1 : PixelPosition
  pos2 : PixelPosition
deriving DecidableEq, Repr

/-- Result of `embedInPixelPair` (`PVDEmbedResult`). -/
structure PVDEmbedResult where
  newPixel1 : Int
  newPixel2 : Int
  actualDiff : Int
deriving DecidableEq, Repr

/-- `PVD_RANGE_TABLE` from the source, lines 4-11. -/
def PVD_RANGE_TABLE : List PVDRange :=
  [⟨0, 7, 3⟩, ⟨8, 15, 3⟩, ⟨16, 31, 4⟩, ⟨32, 63, 5⟩, ⟨64, 127, 6⟩, ⟨128, 255, 7⟩]

/-- Little-endian binary digits of `n` (empty for 0), with explicit fuel so
that the definition reduces in the kernel; fuel `n` always suffices. -/
def natToBinAux : Nat → Nat → List Bool
  | 0, _ => []
  | fuel + 1, n => if n = 0 then [] else (n % 2 == 1) :: natToBinAux fuel (n / 2)

/-- Little-endian binary digits of `n` (empty for 0). -/
def binDigits (n : Nat) : List Bool :=
  natToBinAux n n

/-- `n.toString(2)` for `n : Nat`: binary digits, most significant first,
`"0"` for zero (JS semantics). -/
def natToBin (n : Nat) : List Bool :=
  if n = 0 then [false] else (binDigits n).reverse

/-- `s.padStart(len, "0")` on a bit string. -/
def padStartF (l : List Bool) (len : Nat) : List Bool :=
  List.replicate (len - l.length) false ++ l

/-- `s.padEnd(len, "0")` on a bit string. -/
def padEndF (l : List Bool) (len : Nat) : List Bool :=
  l ++ List.replicate (len - l.length) false

/-- `parseInt(s, 2)` on a non-empty bit string (most significant first). -/
def bitsToNat (l : List Bool) : Nat :=
  l.foldl (fun a b => 2 * a + cond b 1 0) 0

/-- `parseInt(s, 2)` including the `NaN` case for the empty string. -/
def parseBinOpt (l : List Bool) : Option Nat :=
  if l = [] then none else some (bitsToNat l)

/-- `textToBinary` (source lines 14-19): each code unit as an 8-bit
(big-endian, zero-padded) group.  Code units above 255 would yield longer
groups, exactly as `toString(2).padStart(8, "0")` does. -/
def textToBinary (s : Str) : List Bool :=
  s.flatMap (fun c => padStartF (natToBin c) 8)

/-- Split a bit string into groups of (up to) 8 bits:
`binary.match(/.{1,8}/g)`.  Fuel-based so that it reduces definitionally;
the fuel `l.length` always suffices. -/
def chunksAux : Nat → List Bool → List (List Bool)
  | 0, _ => []
  | _ + 1, [] => []
  | fuel + 1, b :: rest => (b :: rest.take 7) :: chunksAux fuel (rest.drop 7)

/-- `binaryToText` (source lines 21-33): 8-bit groups to code units, keeping
only printable ASCII `[32,126]`, dropping the rest. -/
def binaryToText (l : List Bool) : Str :=
  (chunksAux (jsLength l) l).foldr
    (fun chunk acc =>
      let c := bitsToNat chunk
      if 32 ≤ c ∧ c ≤ 126 then c :: acc else acc)
    []

/-- The linear scan of `PVD_RANGE_TABLE` inside `getRangeInfo`. -/
def findRange (a : Nat) : List PVDRange → Option PVDRange
  | [] => none
  | r :: rest => if r.min ≤ a ∧ a ≤ r.max then some r else findRange a rest

/-- `getRangeInfo` on the absolute difference (source lines 36-47); falls
back to the last table row. -/
def getRangeInfoAbs (a : Nat) : PVDRange :=
  (findRange a PVD_RANGE_TABLE).getD (PVD_RANGE_TABLE.getLastD ⟨0, 0, 0⟩)

/-- `getRangeInfo` (source lines 36-47). -/
def getRangeInfo (diff : Int) : PVDRange :=
  getRangeInfoAbs diff.natAbs

/-- `newAbsDiff` and `targetDiff` of `embedInPixelPair` (source lines
97-103): the tier-clamped embedded magnitude, carrying the sign of the
original difference. -/
def embedTarget (pixel1 pixel2 : Int) (messageBits : List Bool) (rangeInfo : PVDRange) : Int :=
  let messageValue := bitsToNat messageBits
  let newAbsDiff : Nat := max rangeInfo.min (min (rangeInfo.min + messageValue) rangeInfo.max)
  if 0 ≤ pixel1 - pixel2 then (newAbsDiff : Int) else -(newAbsDiff : Int)

/-- `adjustment` of `embedInPixelPair` (source line 106). -/
def embedAdjustment (pixel1 pixel2 : Int) (messageBits : List Bool) (rangeInfo : PVDRange) : Int :=
  embedTarget pixel1 pixel2 messageBits rangeInfo - (pixel1 - pixel2)

/-- `embedInPixelPair` (source lines 92-131).  `Math.floor(adjustment / 2)`
on a possibly negative number is floor division, `Int.fdiv`. -/
def embedInPixelPair (pixel1 pixel2 : Int) (messageBits : List Bool) (rangeInfo : PVDRange) :
    PVDEmbedResult :=
  let adjustment := embedAdjustment pixel1 pixel2 messageBits rangeInfo
  if adjustment.natAbs ≤ 2 then
    if 0 < adjustment then
      ⟨min 255 (pixel1 + adjustment), pixel2, min 255 (pixel1 + adjustment) - pixel2⟩
    else if adjustment < 0 then
      ⟨max 0 (pixel1 + adjustment), pixel2, max 0 (pixel1 + adjustment) - pixel2⟩
    else
      ⟨pixel1, pixel2, pixel1 - pixel2⟩
  else
    let half := adjustment.fdiv 2
    let n1 := max 0 (min 255 (pixel1 + half))
    let n2 := max 0 (min 255 (pixel2 - (adjustment - half)))
    ⟨n1, n2, n1 - n2⟩

/-- `extractFromPixelPair` (source lines 134-150).  `Math.max(0, absDiff -
rangeInfo.min)` coincides with saturating `Nat` subtraction. -/
def extractFromPixelPair (pixel1 pixel2 : Int) : List Bool :=
  let diff := pixel1 - pixel2
  let rangeInfo := getRangeInfo diff
  let embeddedValue : Nat := diff.natAbs - rangeInfo.min
  let maxValue : Nat := 2 ^ rangeInfo.capacity - 1
  let clampedValue := min embeddedValue maxValue
  padStartF (natToBin clampedValue) rangeInfo.capacity

/-- The constant header pattern `"1010101010101010"`. -/
def headerPatternBits : List Bool :=
  [true, false, true, false, true, false, true, false,
   true, false, true, false, true, false, true, false]

/-- Number of agreeing positions between the first 16 extracted bits and the
expected header (source lines 156-161); out-of-range indices never match,
as `undefined === '1'` is false in JS. -/
def headerMatchCount (l : List Bool) : Nat :=
  (List.range 16).countP (fun i => l.get? i == headerPatternBits.get? i)

/-- `validateHeader().valid` (source lines 153-166): at least 75 % of 16
bits, i.e. at least 12, must match. -/
def validateHeader (l : List Bool) : Bool :=
  12 ≤ headerMatchCount l

/-- `Math.floor(Math.sqrt(n))` for integer `n`: the largest `k` with
`k * k ≤ n` (the filtered range is a prefix of `0..n`, so its last element
is that `k`).  Executable without well-founded recursion so that concrete
instances reduce in the kernel. -/
def floorSqrt (n : Nat) : Nat :=
  ((List.range (n + 1)).filter (fun k => k * k ≤ n)).getLastD 0

/-- The LCG step of the keyed PRNG (source line 56):
`seed = (seed * 9301 + 49297) % 233280`. -/
def lcg (seed : Nat) : Nat :=
  (seed * 9301 + 49297) % 233280

/-- Initial seed: sum of the key's code units (source line 52). -/
def keySeed (locationKey : Str) : Nat :=
  locationKey.foldl (fun acc c => acc + c) 0

/-- `Math.floor(prng() * k)` where `prng()` yields `seed / 233280`:
exact rational flooring. -/
def prngFloor (seed k : Nat) : Nat :=
  seed * k / 233280

/-- The body of the nested grid loops of `generatePixelPairs` (source lines
68-86), flattened over the row-major list of grid anchors.  The double
`break` on `pairs.length >= maxPairs` fires immediately after a push in both
loops, so it is a single break on the flattened traversal.  The PRNG seed is
threaded explicitly; `cnt` is `pairs.length` so far. -/
def genLoop (maxPairs gridSize width height : Nat) :
    List (Nat × Nat) → Nat → Nat → List PixelPair
  | [], _, _ => []
  | (x, y) :: rest, seed, cnt =>
    let s1 := lcg seed
    let offsetX := prngFloor s1 (gridSize - 1)
    let s2 := lcg s1
    let offsetY := prngFloor s2 (gridSize - 1)
    let finalX := min (x + offsetX) (width - 2)
    let finalY := min (y + offsetY) (height - 1)
    let p : PixelPair := ⟨⟨finalX, finalY⟩, ⟨finalX + 1, finalY⟩⟩
    if cnt + 1 ≥ maxPairs then [p]
    else p :: genLoop maxPairs gridSize width height rest s2 (cnt + 1)

/-- Row-major grid anchors: `y` from 0 in steps of `gridSize` below
`height`, `x` from 0 in steps of `gridSize` below `width - 1`. -/
def gridCells (width height gridSize : Nat) : List (Nat × Nat) :=
  (List.range' 0 ((height + gridSize - 1) / gridSize) gridSize).flatMap
    (fun y => (List.range' 0 ((width - 1 + gridSize - 1) / gridSize) gridSize).map
      (fun x => (x, y)))

/-- `generatePixelPairs` (source lines 50-89). -/
def generatePixelPairs (locationKey : Str) (width height : Nat) : List PixelPair :=
  let totalPixels := width * height
  let maxPairs := min 10000 (totalPixels / 3)
  let gridSize := max 2 (floorSqrt (totalPixels / maxPairs))
  genLoop maxPairs gridSize width height (gridCells width height gridSize) (keySeed locationKey) 0

/-- The RGBA pixel buffer (`Uint8ClampedArray`), flat index to byte value. -/
abbrev Buf := Nat → Nat

/-- Blue-channel read `data[(y * width + x) * 4 + 2]` as a JS number. -/
def readB (buf : Buf) (width : Nat) (p : PixelPosition) : Int :=
  (buf ((p.y * width + p.x) * 4 + 2) : Int)

/-- Blue-channel write; `Uint8ClampedArray` clamps stores into `[0,255]`. -/
def writeB (buf : Buf) (width : Nat) (p : PixelPosition) (v : Int) : Buf :=
  fun i => if i = (p.y * width + p.x) * 4 + 2 then (max 0 (min 255 v)).toNat else buf i

/-- The `"START"` marker's code units. -/
def START : Str := [83, 84, 65, 82, 84]

/-- The `"END"` marker's code units. -/
def ENDM : Str := [69, 78, 68]

/-- `headerPattern + lengthBinary + messageBinary` (source lines 184-186). -/
def totalMessageOf (messageBinary : List Bool) : List Bool :=
  headerPatternBits ++ padStartF (natToBin (jsLength messageBinary)) 16 ++ messageBinary

/-- The capacity sample of `encodePVDLocationBased` (source lines 193-202):
sum of tier capacities over the first `min(pairs.length, 100)` pairs. -/
def sampleCapacity (buf : Buf) (width : Nat) (pairs : List PixelPair) : Nat :=
  (pairs.take (min (jsLength pairs) 100)).foldl
    (fun acc pr =>
      acc + (getRangeInfo (readB buf width pr.pos1 - readB buf width pr.pos2)).capacity)
    0

/-- Errors surfaced by the encode path (the `reject(...)` calls). -/
inductive EncodeError where
  | missingParameter : EncodeError
  | imageTooSmall : EncodeError
  | noPairs : EncodeError
  | capacityExceeded (estimatedChars : Nat) : EncodeError
deriving DecidableEq, Repr

/-- The embedding loop of `encodePVDLocationBased` (source lines 214-252):
walk the pairs in order while message bits remain, embedding
`min(capacity, remaining)` bits (zero-padded to the tier width) per pair
into the blue channel. -/
def embedLoop (total : List Bool) (width : Nat) :
    List PixelPair → Buf → Nat → Buf
  | [], buf, _ => buf
  | pr :: rest, buf, messageIndex =>
    if messageIndex < jsLength total then
      let bluePixel1 := readB buf width pr.pos1
      let bluePixel2 := readB buf width pr.pos2
      let rangeInfo := getRangeInfo (bluePixel1 - bluePixel2)
      let bitsToEmbed := min rangeInfo.capacity (jsLength total - messageIndex)
      let messageBits := (total.drop messageIndex).take bitsToEmbed
      let paddedBits := padEndF messageBits rangeInfo.capacity
      let result := embedInPixelPair bluePixel1 bluePixel2 paddedBits rangeInfo
      let buf' := writeB (writeB buf width pr.pos1 result.newPixel1) width pr.pos2 result.newPixel2
      embedLoop total width rest buf' (messageIndex + bitsToEmbed)
    else buf

/-- `encodePVDLocationBased` (source lines 169-270).  The capacity check
`totalMessage.length > estimatedCapacity * 0.9` with `estimatedCapacity =
totalCapacity * (pixelPairs.length / 100)` is the exact rational comparison
`1000 * len > 9 * totalCapacity * pairs.length`; the reported character
budget is `Math.floor(estimatedCapacity / 8)`. -/
def encodePVDLocationBased (buf : Buf) (width height : Nat) (locationKey : Str)
    (messageBinary : List Bool) : Except EncodeError Buf :=
  let pixelPairs := generatePixelPairs locationKey width height
  if pixelPairs = [] then .error .noPairs
  else
    let totalMessage := totalMessageOf messageBinary
    let totalCapacity := sampleCapacity buf width pixelPairs
    if 1000 * jsLength totalMessage > 9 * totalCapacity * jsLength pixelPairs then
      .error (.capacityExceeded (totalCapacity * jsLength pixelPairs / 100 / 8))
    else
      .ok (embedLoop totalMessage width pixelPairs buf 0)

/-- The header/length extraction loop of `decodePVDLocationBased` (source
lines 291-308): extract pairs in order until at least 32 bits are
collected; returns the bits and `processedPairs`. -/
def extractLoop32 (buf : Buf) (width : Nat) :
    List PixelPair → List Bool → Nat → List Bool × Nat
  | [], acc, cnt => (acc, cnt)
  | pr :: rest, acc, cnt =>
    if jsLength acc < 32 then
      extractLoop32 buf width rest
        (acc ++ extractFromPixelPair (readB buf width pr.pos1) (readB buf width pr.pos2))
        (cnt + 1)
    else (acc, cnt)

/-- The extended header search of `decodePVDLocationBased` (source lines
318-356): probe up to `budget` (100) further pairs, each time prepending
the new bits to the front of the 32-bit window and re-validating; `none`
when the budget or the pair list is exhausted. -/
def extSearch (buf : Buf) (width : Nat) (pairs : List PixelPair) :
    List Bool → Nat → Nat → Option (List Bool)
  | _, _, 0 => none
  | extracted, idx, budget + 1 =>
    match pairs.get? idx with
    | none => none
    | some pr =>
      let bits := extractFromPixelPair (readB buf width pr.pos1) (readB buf width pr.pos2)
      let extracted' := bits ++ extracted.take (32 - bits.length)
      if validateHeader extracted' then some extracted'
      else extSearch buf width pairs extracted' (idx + 1) budget

/-- The candidate fallback lengths (source line 369). -/
def possibleLengths : List Nat := [1000, 2000, 4000, 8000]

/-- The fallback branch of the length validation (source lines 367-384):
the `for ... break` loop always selects the first candidate and sets
`validLengthFound`, so the trailing `min(2000, remaining * 3)` assignment
is only reachable with an empty candidate list. -/
def fallbackLength (pairCount processedPairs : Nat) : Nat :=
  match possibleLengths with
  | len :: _ => len
  | [] => min 2000 ((pairCount - processedPairs) * 3)

/-- The message-length validation of `decodePVDLocationBased` (source lines
360-385): `parseInt` of bits 16-31 (`none` = `NaN`), replaced by the
fallback when `NaN`, non-positive, or above 50000. -/
def resolveMessageLength (parsed : Option Nat) (pairCount processedPairs : Nat) : Nat :=
  match parsed with
  | none => fallbackLength pairCount processedPairs
  | some n => if n = 0 ∨ 50000 < n then fallbackLength pairCount processedPairs else n

/-- The payload extraction loop (source lines 390-408): keep extracting
pairs (starting at `processedPairs`) until `totalBitsNeeded` bits are
collected or pairs run out. -/
def extractLoopN (buf : Buf) (width totalBitsNeeded : Nat) :
    List PixelPair → List Bool → List Bool
  | [], acc => acc
  | pr :: rest, acc =>
    if jsLength acc < totalBitsNeeded then
      extractLoopN buf width totalBitsNeeded rest
        (acc ++ extractFromPixelPair (readB buf width pr.pos1) (readB buf width pr.pos2))
    else acc

/-- `needle` is a prefix of `hay` (used for `String.indexOf`). -/
def startsWithSub : Str → Str → Bool
  | [], _ => true
  | _ :: _, [] => false
  | a :: as, b :: bs => a == b && startsWithSub as bs

/-- `hay.indexOf(needle)` from position `i` onwards; `none` = `-1`. -/
def indexOfAux (needle : Str) : Str → Nat → Option Nat
  | [], i => if startsWithSub needle [] then some i else none
  | h :: t, i => if startsWithSub needle (h :: t) then some i else indexOfAux needle t (i + 1)

/-- `hay.indexOf(needle)`; `none` = `-1`. -/
def indexOfSub (hay needle : Str) : Option Nat :=
  indexOfAux needle hay 0

/-- JS whitespace code units relevant below 256 (`String.prototype.trim`). -/
def isJsSpace (c : Nat) : Bool :=
  c = 9 ∨ c = 10 ∨ c = 11 ∨ c = 12 ∨ c = 13 ∨ c = 32 ∨ c = 160

/-- `s.trim()`: strip leading and trailing whitespace. -/
def trimJS (s : Str) : Str :=
  (s.dropWhile isJsSpace).reverse.dropWhile isJsSpace |>.reverse

/-- The character class `[a-zA-Z0-9\s.,!?;:'"(){}\x7b\x7d<>\-_+=\/\\@#$%^&*]`
of the best-run scan (source line 439), on code units: all printable ASCII
except backtick (96), pipe (124) and tilde (126), plus whitespace. -/
def plausibleChar (c : Nat) : Bool :=
  isJsSpace c ∨ (33 ≤ c ∧ c ≤ 126 ∧ c ≠ 96 ∧ c ≠ 124 ∧ c ≠ 126)

/-- The longest-plausible-run scan (source lines 433-452), returning
`(bestStart, bestLength)`. -/
def bestRunLoop : Str → Nat → Nat → Nat → Nat → Nat → Nat × Nat
  | [], _, _, _, bestStart, bestLength => (bestStart, bestLength)
  | c :: rest, i, currentStart, currentLength, bestStart, bestLength =>
    if plausibleChar c then
      let cs := if currentLength = 0 then i else currentStart
      let cl := currentLength + 1
      if bestLength < cl then bestRunLoop rest (i + 1) cs cl cs cl
      else bestRunLoop rest (i + 1) cs cl bestStart bestLength
    else bestRunLoop rest (i + 1) currentStart 0 bestStart bestLength

/-- The no-marker cleanup branch (source lines 427-462): strip
non-printables, trim, then return the longest plausible run if longer than
5, else the first up-to-500 characters. -/
def cleanupBranch (text : Str) : Str :=
  let cleaned := trimJS (text.filter (fun c => 32 ≤ c ∧ c ≤ 126))
  let best := bestRunLoop cleaned 0 0 0 0 0
  if 5 < best.2 then (cleaned.drop best.1).take best.2
  else cleaned.take (min 500 (jsLength cleaned))

/-- Phases 3-6 of `decodePVDLocationBased` (source lines 359-463): length
parsing with fallback, payload extraction, text conversion and marker
scan. -/
def decodeTail (buf : Buf) (width : Nat) (pairs : List PixelPair) (processedPairs : Nat)
    (extracted : List Bool) : Str :=
  let lengthBinary := (extracted.drop 16).take 16
  let messageLength := resolveMessageLength (parseBinOpt lengthBinary) (jsLength pairs) processedPairs
  let totalBitsNeeded := 32 + messageLength
  let fullBits := extractLoopN buf width totalBitsNeeded (pairs.drop processedPairs) extracted
  let messageBinary := (fullBits.drop 32).take messageLength
  let extractedText := binaryToText messageBinary
  match indexOfSub extractedText START, indexOfSub extractedText ENDM with
  | some startIndex, some endIndex =>
    if startIndex < endIndex then
      (extractedText.drop (startIndex + 5)).take (endIndex - (startIndex + 5))
    else cleanupBranch extractedText
  | _, _ => cleanupBranch extractedText

/-- `decodePVDLocationBased` (source lines 273-469). -/
def decodePVDLocationBased (buf : Buf) (locationKey : Str) (width height : Nat) : Str :=
  let pixelPairs := generatePixelPairs locationKey width height
  if pixelPairs = [] then []
  else
    let ph := extractLoop32 buf width pixelPairs [] 0
    if validateHeader ph.1 then decodeTail buf width pixelPairs ph.2 ph.1
    else
      match extSearch buf width pixelPairs ph.1 ph.2 100 with
      | some extracted' => decodeTail buf width pixelPairs ph.2 extracted'
      | none => []

/-- `encodeMessage` (source lines 497-552): parameter and dimension checks,
then `encodePVDLocationBased` on `"START" + message + "END"`.  The data-URL
format check and image loading are outside the pixel model. -/
def encodeMessage (buf : Buf) (width height : Nat) (message locationKey : Str) :
    Except EncodeError Buf :=
  if message = [] ∨ locationKey = [] then .error .missingParameter
  else if width < 100 ∨ height < 100 then .error .imageTooSmall
  else encodePVDLocationBased buf width height locationKey
    (textToBinary (START ++ message ++ ENDM))

/-- Errors surfaced by the decode path. -/
inductive DecodeError where
  | missingParameter : DecodeError
  | imageTooSmall : DecodeError
deriving DecidableEq, Repr

/-- `decodeMessage` (source lines 555-613): parameter and dimension checks;
an empty (after trimming) codec result is resolved as the empty string. -/
def decodeMessage (buf : Buf) (width height : Nat) (locationKey : Str) :
    Except DecodeError Str :=
  if locationKey = [] then .error .missingParameter
  else if width < 100 ∨ height < 100 then .error .imageTooSmall
  else
    let result := decodePVDLocationBased buf locationKey width height
    .ok (if trimJS result = [] then [] else result)

/-- `decode(encode(image, message, key), key)`: the composite round trip,
`none` when either step rejects. -/
def roundTrip (buf : Buf) (width height : Nat) (message locationKey : Str) : Option Str :=
  match encodeMessage buf width height message locationKey with
  | .error _ => none
  | .ok buf' =>
    match decodeMessage buf' width height locationKey with
    | .error _ => none
    | .ok s => some s

/-- ToInt32: JS 32-bit signed wrap (the `hash & hash` and `<< 5` coercions). -/
def toInt32 (n : Int) : Int :=
  (n + 2 ^ 31) % 2 ^ 32 - 2 ^ 31

/-- One step of the polynomial hash of `generateLocationKey` (source lines
478-482): `hash = (hash << 5) - hash + char; hash = hash & hash`. -/
def jsHashStep (h : Int) (c : Nat) : Int :=
  toInt32 (toInt32 (h * 32) - h + (c : Int))

/-- The polynomial hash of a seed string (source lines 477-482). -/
def jsHash (s : Str) : Int :=
  s.foldl jsHashStep 0

/-- The key alphabet `"ABCDEFGHIJKLMNOPQRSTUVWXYZ0123456789"` (36 code
units). -/
def keyChars : Str :=
  [65, 66, 67, 68, 69, 70, 71, 72, 73, 74, 75, 76, 77, 78, 79, 80, 81, 82,
   83, 84, 85, 86, 87, 88, 89, 90, 48, 49, 50, 51, 52, 53, 54, 55, 56, 57]

/-- The 16-character key built from `positiveHash` (source lines 484-493):
character `i` is `chars[(positiveHash + i * 13) % 36]`. -/
def keyFromHashAbs (positiveHash : Nat) : Str :=
  (List.range 16).map (fun i => keyChars.getD ((positiveHash + i * 13) % keyChars.length) 0)

/-- `generateLocationKey` (source lines 472-494) from the grid-cell seed
string `"gridLat,gridLng"` onwards; the floating-point rounding/formatting
of the coordinates only determines which seed string is hashed and is kept
abstract. -/
def generateLocationKey (locationSeed : Str) : Str :=
  keyFromHashAbs (jsHash locationSeed).natAbs

/-- The no-clamping side condition for `embedInPixelPair`: in the
small-adjustment branch the single adjusted pixel stays inside `[0,255]`,
and in the split branch both adjusted pixels do.  When it holds, none of
the `Math.max(0, _)` / `Math.min(255, _)` clamps in `embedInPixelPair`
changes a value. -/
def noClampEmbed (pixel1 pixel2 : Int) (messageBits : List Bool) (rangeInfo : PVDRange) : Prop :=
  (((embedAdjustment pixel1 pixel2 messageBits rangeInfo).natAbs ≤ 2) →
    0 ≤ pixel1 + embedAdjustment pixel1 pixel2 messageBits rangeInfo ∧
    pixel1 + embedAdjustment pixel1 pixel2 messageBits rangeInfo ≤ 255) ∧
  (¬ ((embedAdjustment pixel1 pixel2 messageBits rangeInfo).natAbs ≤ 2) →
    0 ≤ pixel1 + (embedAdjustment pixel1 pixel2 messageBits rangeInfo).fdiv 2 ∧
    pixel1 + (embedAdjustment pixel1 pixel2 messageBits rangeInfo).fdiv 2 ≤ 255 ∧
    0 ≤ pixel2 - (embedAdjustment pixel1 pixel2 messageBits rangeInfo -
      (embedAdjustment pixel1 pixel2 messageBits rangeInfo).fdiv 2) ∧
    pixel2 - (embedAdjustment pixel1 pixel2 messageBits rangeInfo -
      (embedAdjustment pixel1 pixel2 messageBits rangeInfo).fdiv 2) ≤ 255)

/- ### Basic lemmas about the helper functions -/

theorem lenAux_eq (l : List α) : ∀ acc, lenAux l acc = l.length + acc := by
  induction l with
  | nil => intro acc; simp [lenAux]
  | cons a t ih => intro acc; simp [lenAux, ih]; omega

theorem jsLength_eq (l : List α) : jsLength l = l.length := by
  simp [jsLength, lenAux_eq]

theorem natToBinAux_zero_arg (g : Nat) : natToBinAux g 0 = [] := by
  cases g <;> simp [natToBinAux]


theorem natToBinAux_succ (f n : Nat) (hn : n ≠ 0) :
    natToBinAux (f + 1) n = (n % 2 == 1) :: natToBinAux f (n / 2) := by
  simp [natToBinAux, hn]

theorem natToBinAux_stable :
    ∀ f g n : Nat, n ≤ f → n ≤ g → natToBinAux f n = natToBinAux g n := by
  intro f
  induction f with
  | zero =>
    intro g n hf _
    have : n = 0 := Nat.le_zero.mp hf
    subst this
    rw [natToBinAux_zero_arg, natToBinAux_zero_arg]
  | succ f ih =>
    intro g n hf hg
    rcases Nat.eq_zero_or_pos n with h0 | hpos
    · subst h0; rw [natToBinAux_zero_arg, natToBinAux_zero_arg]
    · obtain ⟨g', rfl⟩ : ∃ g', g = g' + 1 := ⟨g - 1, by omega⟩
      have hne : n ≠ 0 := by omega
      rw [natToBinAux_succ f n hne, natToBinAux_succ g' n hne]
      congr 1
      exact ih g' (n / 2) (by omega) (by omega)

theorem natToBinAux_self (m : Nat) (hm : m ≠ 0) :
    natToBinAux m m = (m % 2 == 1) :: natToBinAux (m - 1) (m / 2) := by
  obtain ⟨f, rfl⟩ : ∃ f, m = f + 1 := ⟨m - 1, by omega⟩
  rw [natToBinAux_succ f (f + 1) hm]
  simp

theorem binDigits_step (n : Nat) (b : Bool) (hn : 0 < n) :
    binDigits (2 * n + cond b 1 0) = ((2 * n + cond b 1 0) % 2 == 1) :: binDigits n := by
  have hne : 2 * n + cond b 1 0 ≠ 0 := by cases b <;> simp <;> omega
  unfold binDigits
  rw [natToBinAux_self _ hne]
  have hdiv : (2 * n + cond b 1 0) / 2 = n := by cases b <;> simp <;> omega
  rw [hdiv]
  congr 1
  exact natToBinAux_stable (2 * n + cond b 1 0 - 1) n n (by cases b <;> simp <;> omega)
    (le_refl _)

theorem bitsToNat_append (l : List Bool) (b : Bool) :
    bitsToNat (l ++ [b]) = 2 * bitsToNat l + cond b 1 0 := by
  simp [bitsToNat, List.foldl_append]

theorem bitsToNat_lt (l : List Bool) : bitsToNat l < 2 ^ l.length := by
  induction l using List.reverseRecOn with
  | nil => simp [bitsToNat]
  | append_singleton l b ih =>
    rw [bitsToNat_append]
    simp only [List.length_append, List.length_singleton, pow_succ]
    cases b <;> simp <;> omega

theorem natToBin_zero : natToBin 0 = [false] := rfl

theorem natToBin_one : natToBin 1 = [true] := rfl

theorem bits_roundtrip : ∀ l : List Bool, l ≠ [] →
    padStartF (natToBin (bitsToNat l)) l.length = l := by
  intro l
  induction l using List.reverseRecOn with
  | nil => intro h; exact absurd rfl h
  | append_singleton l' b ih =>
    intro _
    rcases List.eq_nil_or_concat l' with rfl | hcons
    · cases b <;> simp [bitsToNat, natToBin, binDigits, natToBinAux, padStartF]
    · have hl' : l' ≠ [] := by
        obtain ⟨x, y, rfl⟩ := hcons; exact List.concat_ne_nil y x
      have hlen1 : 1 ≤ l'.length := by
        rcases l' with _ | _
        · exact absurd rfl hl'
        · simp
      have ihl := ih hl'
      rw [bitsToNat_append]
      rcases Nat.eq_zero_or_pos (bitsToNat l') with h0 | hpos
      · -- the prefix encodes 0, so it is all zero bits
        rw [h0] at ihl
        rw [natToBin_zero] at ihl
        simp only [padStartF, List.length_singleton] at ihl
        have e1 : List.replicate (l'.length - 1) false ++ [false] =
            List.replicate l'.length false := by
          rw [← List.replicate_succ']
          congr 1
          omega
        rw [e1] at ihl
        rw [h0]
        cases b
        · have hv : 2 * 0 + cond false 1 0 = 0 := rfl
          rw [hv, natToBin_zero]
          simp only [padStartF, List.length_singleton, List.length_append]
          have e2 : l'.length + 1 - 1 = l'.length := by omega
          rw [e2, ← ihl]
          simp
        · have hv : 2 * 0 + cond true 1 0 = 1 := rfl
          rw [hv, natToBin_one]
          simp only [padStartF, List.length_singleton, List.length_append]
          have e2 : l'.length + 1 - 1 = l'.length := by omega
          rw [e2, ← ihl]
          simp
      · -- the prefix encodes a positive number: peel one binary digit
        have hne2 : 2 * bitsToNat l' + cond b 1 0 ≠ 0 := by cases b <;> simp <;> omega
        have hne1 : bitsToNat l' ≠ 0 := by omega
        have hhead : ((2 * bitsToNat l' + cond b 1 0) % 2 == 1) = b := by
          cases b <;> simp <;> omega
        have hsplit : natToBin (2 * bitsToNat l' + cond b 1 0) =
            natToBin (bitsToNat l') ++ [b] := by
          simp only [natToBin, hne2, hne1, if_false]
          rw [binDigits_step _ _ hpos, hhead]
          simp
        rw [hsplit]
        simp only [padStartF, List.length_append, List.length_singleton]
        have e3 : l'.length + 1 - ((natToBin (bitsToNat l')).length + 1) =
            l'.length - (natToBin (bitsToNat l')).length := by omega
        rw [e3, ← List.append_assoc]
        have : List.replicate (l'.length - (natToBin (bitsToNat l')).length) false ++
            natToBin (bitsToNat l') = l' := ihl
        rw [this]

/- ### Lemmas about the range table -/

theorem tableFacts : ∀ r ∈ PVD_RANGE_TABLE,
    r.min + (2 ^ r.capacity - 1) = r.max ∧ r.max ≤ 255 ∧ 3 ≤ r.capacity := by decide

theorem getRangeInfoAbs_small_mem :
    ∀ a : Fin 256, getRangeInfoAbs a.val ∈ PVD_RANGE_TABLE := by decide

theorem getRangeInfoAbs_of_bounds_small : ∀ a : Fin 256, ∀ r ∈ PVD_RANGE_TABLE,
    r.min ≤ a.val → a.val ≤ r.max → getRangeInfoAbs a.val = r := by decide

theorem findRange_none_of_large (a : Nat) (ha : 256 ≤ a) :
    findRange a PVD_RANGE_TABLE = none := by
  simp only [PVD_RANGE_TABLE, findRange]
  split_ifs <;> simp_all <;> omega

theorem getRangeInfoAbs_of_large (a : Nat) (ha : 256 ≤ a) :
    getRangeInfoAbs a = ⟨128, 255, 7⟩ := by
  unfold getRangeInfoAbs
  rw [findRange_none_of_large a ha]
  rfl

theorem getRangeInfoAbs_mem (a : Nat) : getRangeInfoAbs a ∈ PVD_RANGE_TABLE := by
  rcases Nat.lt_or_ge a 256 with h | h
  · exact getRangeInfoAbs_small_mem ⟨a, h⟩
  · rw [getRangeInfoAbs_of_large a h]; decide

theorem getRangeInfoAbs_of_bounds (r : PVDRange) (hr : r ∈ PVD_RANGE_TABLE) (a : Nat)
    (h1 : r.min ≤ a) (h2 : a ≤ r.max) : getRangeInfoAbs a = r := by
  have hmax : r.max ≤ 255 := (tableFacts r hr).2.1
  have : a < 256 := by omega
  exact getRangeInfoAbs_of_bounds_small ⟨a, this⟩ r hr h1 h2

theorem getRangeInfoAbs_capacity_le (a : Nat) : (getRangeInfoAbs a).capacity ≤ 7 := by
  rcases Nat.lt_or_ge a 256 with h | h
  · revert h
    have : ∀ a : Fin 256, (getRangeInfoAbs a.val).capacity ≤ 7 := by decide
    intro h
    exact this ⟨a, h⟩
  · rw [getRangeInfoAbs_of_large a h]

theorem getRangeInfoAbs_of_bounds' (mn mx cp : Nat)
    (hr : (⟨mn, mx, cp⟩ : PVDRange) ∈ PVD_RANGE_TABLE) (a : Nat)
    (h1 : mn ≤ a) (h2 : a ≤ mx) : getRangeInfoAbs a = ⟨mn, mx, cp⟩ :=
  getRangeInfoAbs_of_bounds _ hr a h1 h2

theorem getRangeInfoAbs_capacity_closed (a : Nat) : (getRangeInfoAbs a).capacity =
    if a ≤ 15 then 3 else if a ≤ 31 then 4 else if a ≤ 63 then 5
    else if a ≤ 127 then 6 else 7 := by
  rcases Nat.lt_or_ge a 256 with h | h
  · by_cases h7 : a ≤ 7
    · rw [getRangeInfoAbs_of_bounds' 0 7 3 (by decide) a (by omega) (by omega)]
      dsimp only
      split_ifs <;> omega
    · by_cases h15 : a ≤ 15
      · rw [getRangeInfoAbs_of_bounds' 8 15 3 (by decide) a (by omega) (by omega)]
        dsimp only
        split_ifs <;> omega
      · by_cases h31 : a ≤ 31
        · rw [getRangeInfoAbs_of_bounds' 16 31 4 (by decide) a (by omega) (by omega)]
          dsimp only
          split_ifs <;> omega
        · by_cases h63 : a ≤ 63
          · rw [getRangeInfoAbs_of_bounds' 32 63 5 (by decide) a (by omega) (by omega)]
            dsimp only
            split_ifs <;> omega
          · by_cases h127 : a ≤ 127
            · rw [getRangeInfoAbs_of_bounds' 64 127 6 (by decide) a (by omega) (by omega)]
              dsimp only
              split_ifs <;> omega
            · rw [getRangeInfoAbs_of_bounds' 128 255 7 (by decide) a (by omega) (by omega)]
              dsimp only
              split_ifs <;> omega
  · rw [getRangeInfoAbs_of_large a h]
    dsimp only
    split_ifs <;> omega

theorem getRangeInfoAbs_mono (a b : Nat) (hab : a ≤ b) :
    (getRangeInfoAbs a).capacity ≤ (getRangeInfoAbs b).capacity := by
  rw [getRangeInfoAbs_capacity_closed, getRangeInfoAbs_capacity_closed]
  split_ifs <;> omega

/- ### Claim theorems -/

/-- C2: two calls of the pixel-pair generator with identical key, width and
height arguments yield identical sequences of pixel pairs, in both content
and order; in the embedding the generator is a pure function of exactly
these three arguments (the PRNG seed is local to each call, derived from
the key alone). -/
theorem c2_generator_deterministic (locationKey : Str) (width height : Nat)
    (s1 s2 : List PixelPair)
    (h1 : s1 = generatePixelPairs locationKey width height)
    (h2 : s2 = generatePixelPairs locationKey width height) : s1 = s2 :=
  h1.trans h2.symm

/-- Witness for C2: two runs at a concrete key and concrete dimensions
agree. -/
theorem c2_generator_deterministic_witness :
    generatePixelPairs [79, 75] 8 8 = generatePixelPairs [79, 75] 8 8 :=
  c2_generator_deterministic [79, 75] 8 8 _ _ rfl rfl

/-- C5: the capacity classifier is total on all integer differences (always
returning a row of the table), falls back to the highest tier outside
`[0,255]`, assigns every integer in `[0,255]` to exactly one tier, and its
capacity is non-decreasing in the absolute difference — in particular
across the boundaries 7/8, 15/16, 31/32, 63/64 and 127/128. -/
theorem c5_classifier_total_unique_monotone :
    (∀ diff : Int, getRangeInfo diff ∈ PVD_RANGE_TABLE) ∧
    (∀ diff : Int, 255 < diff.natAbs → getRangeInfo diff = ⟨128, 255, 7⟩) ∧
    (∀ a : Nat, a ≤ 255 →
      PVD_RANGE_TABLE.countP (fun r => decide (r.min ≤ a ∧ a ≤ r.max)) = 1) ∧
    (∀ d1 d2 : Int, d1.natAbs ≤ d2.natAbs →
      (getRangeInfo d1).capacity ≤ (getRangeInfo d2).capacity) := by
  refine ⟨fun d => getRangeInfoAbs_mem _,
    fun d h => getRangeInfoAbs_of_large _ (by omega),
    ?_,
    fun d1 d2 h => getRangeInfoAbs_mono _ _ h⟩
  intro a ha
  have h256 : ∀ a : Fin 256,
      PVD_RANGE_TABLE.countP (fun r => decide (r.min ≤ a.val ∧ a.val ≤ r.max)) = 1 := by decide
  exact h256 ⟨a, by omega⟩

/-- Witness for C5 at concrete differences: totality at 10, fallback at 300,
uniqueness at 100, monotonicity across the 7/8 boundary. -/
theorem c5_classifier_witness :
    getRangeInfo 10 ∈ PVD_RANGE_TABLE ∧
    getRangeInfo 300 = ⟨128, 255, 7⟩ ∧
    PVD_RANGE_TABLE.countP (fun r => decide (r.min ≤ 100 ∧ 100 ≤ r.max)) = 1 ∧
    (getRangeInfo 7).capacity ≤ (getRangeInfo 8).capacity :=
  ⟨c5_classifier_total_unique_monotone.1 10,
   c5_classifier_total_unique_monotone.2.1 300 (by decide),
   c5_classifier_total_unique_monotone.2.2.1 100 (by decide),
   c5_classifier_total_unique_monotone.2.2.2 7 8 (by decide)⟩

/-- C3: for all pixel values in `[0,255]`, every tier of the range table and
every bit string of the tier's capacity, both pixel values returned by
`embedInPixelPair` lie in `[0,255]`. -/
theorem c3_embed_boundary_safety (pixel1 pixel2 : Int) (rangeInfo : PVDRange)
    (messageBits : List Bool)
    (hp1 : 0 ≤ pixel1) (hp1' : pixel1 ≤ 255) (hp2 : 0 ≤ pixel2) (hp2' : pixel2 ≤ 255)
    (hr : rangeInfo ∈ PVD_RANGE_TABLE)
    (hlen : messageBits.length = rangeInfo.capacity) :
    0 ≤ (embedInPixelPair pixel1 pixel2 messageBits rangeInfo).newPixel1 ∧
    (embedInPixelPair pixel1 pixel2 messageBits rangeInfo).newPixel1 ≤ 255 ∧
    0 ≤ (embedInPixelPair pixel1 pixel2 messageBits rangeInfo).newPixel2 ∧
    (embedInPixelPair pixel1 pixel2 messageBits rangeInfo).newPixel2 ≤ 255 := by
  simp only [embedInPixelPair]
  split_ifs with h1 h2 h3 <;> dsimp only
  · exact ⟨by omega, by omega, by omega, by omega⟩
  · exact ⟨by omega, by omega, by omega, by omega⟩
  · exact ⟨by omega, by omega, by omega, by omega⟩
  · generalize (embedAdjustment pixel1 pixel2 messageBits rangeInfo).fdiv 2 = q
    exact ⟨by omega, by omega, by omega, by omega⟩

/-- Witness for C3: a concrete embedding (pixels 100 and 90, tier `[8,15]`,
bits `101`) stays inside `[0,255]`. -/
theorem c3_embed_boundary_safety_witness :
    0 ≤ (embedInPixelPair 100 90 [true, false, true] ⟨8, 15, 3⟩).newPixel1 ∧
    (embedInPixelPair 100 90 [true, false, true] ⟨8, 15, 3⟩).newPixel1 ≤ 255 ∧
    0 ≤ (embedInPixelPair 100 90 [true, false, true] ⟨8, 15, 3⟩).newPixel2 ∧
    (embedInPixelPair 100 90 [true, false, true] ⟨8, 15, 3⟩).newPixel2 ≤ 255 :=
  c3_embed_boundary_safety 100 90 ⟨8, 15, 3⟩ [true, false, true]
    (by decide) (by decide) (by decide) (by decide) (by decide) (by decide)

theorem embed_diff_eq_target (pixel1 pixel2 : Int) (messageBits : List Bool)
    (rangeInfo : PVDRange)
    (hnc : noClampEmbed pixel1 pixel2 messageBits rangeInfo) :
    (embedInPixelPair pixel1 pixel2 messageBits rangeInfo).newPixel1 -
      (embedInPixelPair pixel1 pixel2 messageBits rangeInfo).newPixel2 =
      embedTarget pixel1 pixel2 messageBits rangeInfo := by
  obtain ⟨hsmall, hbig⟩ := hnc
  have hadj_eq : embedAdjustment pixel1 pixel2 messageBits rangeInfo =
      embedTarget pixel1 pixel2 messageBits rangeInfo - (pixel1 - pixel2) := rfl
  simp only [embedInPixelPair]
  split_ifs with h1 h2 h3 <;> dsimp only
  · have hb := hsmall h1
    omega
  · have hb := hsmall h1
    omega
  · omega
  · have hb := hbig h1
    generalize hq : (embedAdjustment pixel1 pixel2 messageBits rangeInfo).fdiv 2 = q at hb ⊢
    omega

/-- C4: pair-level inverse.  For pixel values in `[0,255]` and a bit string
whose length is the capacity of the tier classified from `pixel1 - pixel2`,
if embedding incurs no clamping at 0 or 255, then extracting from the new
pixel pair returns exactly the embedded bit string. -/
theorem c4_embed_extract_inverse (pixel1 pixel2 : Int) (messageBits : List Bool)
    (hp1 : 0 ≤ pixel1) (hp1' : pixel1 ≤ 255) (hp2 : 0 ≤ pixel2) (hp2' : pixel2 ≤ 255)
    (hlen : messageBits.length = (getRangeInfo (pixel1 - pixel2)).capacity)
    (hnc : noClampEmbed pixel1 pixel2 messageBits (getRangeInfo (pixel1 - pixel2))) :
    extractFromPixelPair
      (embedInPixelPair pixel1 pixel2 messageBits (getRangeInfo (pixel1 - pixel2))).newPixel1
      (embedInPixelPair pixel1 pixel2 messageBits (getRangeInfo (pixel1 - pixel2))).newPixel2 =
      messageBits := by
  set r := getRangeInfo (pixel1 - pixel2) with hr_def
  have hrmem : r ∈ PVD_RANGE_TABLE := getRangeInfoAbs_mem _
  obtain ⟨hmaxeq, hmax255, hcap3⟩ := tableFacts r hrmem
  set v := bitsToNat messageBits with hv_def
  have hvlt : v < 2 ^ r.capacity := hlen ▸ bitsToNat_lt messageBits
  have hpow1 : 1 ≤ 2 ^ r.capacity := Nat.one_le_two_pow
  have habs : r.min + v ≤ r.max := by omega
  have hnewabs : max r.min (min (r.min + v) r.max) = r.min + v := by
    rw [min_eq_left habs]
    exact max_eq_right (Nat.le_add_right _ _)
  have htarget : embedTarget pixel1 pixel2 messageBits r =
      if 0 ≤ pixel1 - pixel2 then ((r.min + v : Nat) : Int) else -((r.min + v : Nat) : Int) := by
    simp only [embedTarget]
    rw [← hv_def, hnewabs]
  have hdiff := embed_diff_eq_target pixel1 pixel2 messageBits r hnc
  rw [htarget] at hdiff
  have habsdiff : ((embedInPixelPair pixel1 pixel2 messageBits r).newPixel1 -
      (embedInPixelPair pixel1 pixel2 messageBits r).newPixel2).natAbs = r.min + v := by
    rw [hdiff]
    split_ifs
    · exact Int.natAbs_ofNat _
    · rw [Int.natAbs_neg]
      exact Int.natAbs_ofNat _
  have hsame : getRangeInfo ((embedInPixelPair pixel1 pixel2 messageBits r).newPixel1 -
      (embedInPixelPair pixel1 pixel2 messageBits r).newPixel2) = r := by
    unfold getRangeInfo
    rw [habsdiff]
    exact getRangeInfoAbs_of_bounds r hrmem _ (Nat.le_add_right _ _) habs
  simp only [extractFromPixelPair]
  rw [habsdiff, hsame]
  have hclamp : min (r.min + v - r.min) (2 ^ r.capacity - 1) = v := by
    rw [Nat.add_sub_cancel_left]
    exact min_eq_left (by omega)
  rw [hclamp]
  have hne : messageBits ≠ [] := by
    intro hnil
    rw [hnil] at hlen
    simp at hlen
    omega
  have := bits_roundtrip messageBits hne
  rw [hlen] at this
  rw [hv_def]
  exact this

/-- Witness for C4: embedding `101` into pixels `(100, 90)` (difference 10,
tier `[8,15]`, no clamping) and extracting recovers `101`. -/
theorem c4_embed_extract_inverse_witness :
    extractFromPixelPair
      (embedInPixelPair 100 90 [true, false, true] (getRangeInfo (100 - 90))).newPixel1
      (embedInPixelPair 100 90 [true, false, true] (getRangeInfo (100 - 90))).newPixel2 =
      [true, false, true] :=
  c4_embed_extract_inverse 100 90 [true, false, true]
    (by decide) (by decide) (by decide) (by decide) (by decide)
    (by constructor <;> intro h <;> simp_all <;> decide)

theorem flatMap_const_nil (l : List α) : l.flatMap (fun _ => ([] : List β)) = [] := by
  induction l <;> simp_all

/-- C6 counterexample: at `width = 1` (an invalid dimension) the pixel-pair
generator does not fail with an `InvalidDimensions` error — it is total and
returns the ordinary empty array (both loops simply do not run), which the
callers then map to their own error or empty result. -/
theorem c6_invalid_dims_counterexample : generatePixelPairs [75] 1 5 = [] := by decide

/-- C6 (amended): for `width < 2` or `height < 1` the generator returns the
empty sequence (no error is thrown); for all valid dimensions it returns a
non-empty sequence. -/
theorem c6_generator_empty_iff_invalid (locationKey : Str) (width height : Nat) :
    ((width < 2 ∨ height < 1) → generatePixelPairs locationKey width height = []) ∧
    (2 ≤ width → 1 ≤ height → generatePixelPairs locationKey width height ≠ []) := by
  simp only [generatePixelPairs, gridCells]
  set g := max 2 (floorSqrt (width * height / min 10000 (width * height / 3))) with hg_def
  have hg : 2 ≤ g := le_max_left _ _
  constructor
  · intro hinv
    rcases hinv with hw | hh
    · have hx : (width - 1 + g - 1) / g = 0 := Nat.div_eq_of_lt (by omega)
      rw [hx]
      simp only [List.range'_zero, List.map_nil]
      rw [flatMap_const_nil]
      rfl
    · have hy : (height + g - 1) / g = 0 := Nat.div_eq_of_lt (by omega)
      rw [hy]
      simp only [List.range'_zero]
      rfl
  · intro hw hh
    have hy1 : 1 ≤ (height + g - 1) / g := by
      rw [Nat.one_le_div_iff (by omega)]
      omega
    have hx1 : 1 ≤ (width - 1 + g - 1) / g := by
      rw [Nat.one_le_div_iff (by omega)]
      omega
    obtain ⟨cy, hcy⟩ : ∃ cy, (height + g - 1) / g = cy + 1 :=
      ⟨(height + g - 1) / g - 1, by omega⟩
    obtain ⟨cx, hcx⟩ : ∃ cx, (width - 1 + g - 1) / g = cx + 1 :=
      ⟨(width - 1 + g - 1) / g - 1, by omega⟩
    rw [hcy, hcx, List.range'_succ, List.range'_succ]
    simp only [List.flatMap_cons, List.map_cons, List.cons_append]
    rw [genLoop]
    split
    · exact fun h => List.noConfusion h
    · exact fun h => List.noConfusion h

/-- Witness for C6 (amended): at width 1 the generator yields the empty
sequence, and at the valid dimensions 3×3 it yields a non-empty one. -/
theorem c6_generator_empty_iff_invalid_witness :
    generatePixelPairs [75] 1 7 = [] ∧ generatePixelPairs [75] 3 3 ≠ [] :=
  ⟨(c6_generator_empty_iff_invalid [75] 1 7).1 (Or.inl (by omega)),
   (c6_generator_empty_iff_invalid [75] 3 3).2 (by omega) (by omega)⟩

/-- C7 counterexample: with an invalid parsed length (0) and 20 pairs of
which 11 are already processed, the claimed fallback would be
`min(2000, (20 - 11) * 3) = 27` bits, but the decoder substitutes 1000 bits
(the first entry of `possibleLengths`; its `for ... break` loop always
selects it, leaving the `min(2000, remaining * 3)` assignment dead). -/
theorem c7_fallback_counterexample :
    resolveMessageLength (some 0) 20 11 = 1000 ∧
    min 2000 ((20 - 11) * 3) = 27 ∧ (1000 : Nat) ≠ 27 := by decide

/-- C7 (amended): whenever the 16-bit length parsed from bits 16-31 is `NaN`,
non-positive or exceeds 50000, the decoder does not fail; it substitutes the
constant fallback length of 1000 bits (the first candidate of
`possibleLengths`) and continues extraction — the
`min(remaining-pairs-derived-capacity, 2000)` expression in the source is
unreachable. -/
theorem c7_invalid_length_fallback (parsed : Option Nat) (pairCount processedPairs : Nat)
    (hbad : parsed = none ∨ ∃ n, parsed = some n ∧ (n = 0 ∨ 50000 < n)) :
    resolveMessageLength parsed pairCount processedPairs = 1000 := by
  rcases hbad with rfl | ⟨n, rfl, hn⟩
  · rfl
  · simp only [resolveMessageLength, fallbackLength, possibleLengths]
    rw [if_pos hn]

/-- Witness for C7 (amended): an over-large parsed length (60000) falls back
to 1000 bits. -/
theorem c7_invalid_length_fallback_witness :
    resolveMessageLength (some 60000) 500 10 = 1000 :=
  c7_invalid_length_fallback (some 60000) 500 10 (Or.inr ⟨60000, rfl, Or.inr (by omega)⟩)

theorem keyFromHashAbs_mod (positiveHash : Nat) :
    keyFromHashAbs positiveHash = keyFromHashAbs (positiveHash % 36) := by
  unfold keyFromHashAbs
  apply List.map_congr_left
  intro i _
  have hl : keyChars.length = 36 := rfl
  rw [hl]
  congr 1
  omega

/-- C10: the 16-character location key is fully determined by the absolute
value of the polynomial hash modulo 36 (character `i` is taken at position
`(|hash| + 13 i) mod 36` of the fixed 36-character alphabet): any two seed
strings (hence any two coordinate inputs) whose hashes are congruent modulo
36 produce the identical key, and every key the function can return lies in
a fixed list of 36 candidates. -/
theorem c10_location_key_collapse :
    (∀ s1 s2 : Str, (jsHash s1).natAbs % 36 = (jsHash s2).natAbs % 36 →
      generateLocationKey s1 = generateLocationKey s2) ∧
    (∀ s : Str, generateLocationKey s ∈ (List.range 36).map keyFromHashAbs) := by
  constructor
  · intro s1 s2 hcong
    unfold generateLocationKey
    rw [keyFromHashAbs_mod ((jsHash s1).natAbs), keyFromHashAbs_mod ((jsHash s2).natAbs), hcong]
  · intro s
    unfold generateLocationKey
    rw [keyFromHashAbs_mod]
    exact List.mem_map.mpr ⟨(jsHash s).natAbs % 36,
      List.mem_range.mpr (Nat.mod_lt _ (by omega)), rfl⟩

/-- Witness for C10: the seed strings `"A"` (code 65) and `"e"` (code 101)
hash to 65 and 101, congruent modulo 36, and indeed yield the same key. -/
theorem c10_location_key_collapse_witness :
    generateLocationKey [65] = generateLocationKey [101] :=
  c10_location_key_collapse.1 [65] [101] (by decide)

/-- C9: capacity rejection with atomicity.  With at least 100 pairs
available (the orchestrator's 100×100 minimum guarantees this), the code's
estimate equals the claimed one — the tier capacities of the first
`min(100, |pairs|)` pairs summed and scaled by `|pairs| / sampleSize` — and
whenever the frame's bit length exceeds 0.9 times it (stated as the exact
rational comparison `10 · sampleSize · len > 9 · sampleSum · |pairs|`),
encoding fails with the capacity error carrying the estimated character
budget `⌊estimate / 8⌋` and returns no image buffer: the embedding loop is
never entered and no pixel is written. -/
theorem c9_capacity_rejection (buf : Buf) (width height : Nat) (locationKey : Str)
    (messageBinary : List Bool)
    (hpairs : 100 ≤ jsLength (generatePixelPairs locationKey width height))
    (hover : 10 * min 100 (jsLength (generatePixelPairs locationKey width height)) *
        jsLength (totalMessageOf messageBinary) >
      9 * sampleCapacity buf width (generatePixelPairs locationKey width height) *
        jsLength (generatePixelPairs locationKey width height)) :
    encodePVDLocationBased buf width height locationKey messageBinary =
      .error (.capacityExceeded
        (sampleCapacity buf width (generatePixelPairs locationKey width height) *
          jsLength (generatePixelPairs locationKey width height) / 100 / 8)) := by
  have hmin : min 100 (jsLength (generatePixelPairs locationKey width height)) = 100 :=
    min_eq_left hpairs
  rw [hmin] at hover
  have hne : generatePixelPairs locationKey width height ≠ [] := by
    intro h
    rw [h] at hpairs
    simp [jsLength, lenAux] at hpairs
  simp only [encodePVDLocationBased]
  rw [if_neg hne, if_pos (by omega)]

/-- Witness for C9: an all-black 21×21 image (110 pairs, all in the 3-bit
tier, sampled capacity 300 over the first 100 pairs, estimated capacity
330 bits) with a 280-bit message (312-bit frame > 0.9 × 330) is rejected
with an estimated budget of 41 characters, and no pixel is written. -/
theorem c9_capacity_rejection_witness :
    encodePVDLocationBased (fun _ => 0) 21 21 [75] (List.replicate 280 true) =
      .error (.capacityExceeded 41) := by
  have h := c9_capacity_rejection (fun _ => 0) 21 21 [75] (List.replicate 280 true)
    (by decide) (by decide)
  rw [h]
  congr 1

theorem extSearch_take (buf : Buf) (width : Nat) (pairs : List PixelPair) :
    ∀ budget window idx bound, idx + budget ≤ bound →
      extSearch buf width pairs window idx budget =
      extSearch buf width (pairs.take bound) window idx budget := by
  intro budget
  induction budget with
  | zero => intro window idx bound h; rfl
  | succ b ih =>
    intro window idx bound h
    simp only [extSearch]
    have hget : (pairs.take bound).get? idx = pairs.get? idx := List.get?_take (by omega)
    rw [hget]
    cases hp : pairs.get? idx with
    | none => rfl
    | some pr =>
      dsimp only
      split_ifs
      · rfl
      · exact ih _ _ _ (by omega)

/-- C8: wrong-key behaviour.  If header validation fails on the first 32
extracted bits and none of the re-probed windows passes validation within
the 100-pair budget, decoding terminates with the empty string as a
successful result (never an exception: `decodeMessage` yields `.ok`), and
the extended search inspects at most 100 pairs beyond the starting index
(its result only depends on `pairs.take (idx + 100)`). -/
theorem c8_wrong_key_empty_result (buf : Buf) (locationKey : Str) (width height : Nat)
    (hheader : validateHeader
      (extractLoop32 buf width (generatePixelPairs locationKey width height) [] 0).1 = false)
    (hsearch : extSearch buf width (generatePixelPairs locationKey width height)
      (extractLoop32 buf width (generatePixelPairs locationKey width height) [] 0).1
      (extractLoop32 buf width (generatePixelPairs locationKey width height) [] 0).2 100 = none) :
    decodePVDLocationBased buf locationKey width height = [] ∧
    (100 ≤ width → 100 ≤ height → locationKey ≠ [] →
      decodeMessage buf width height locationKey = .ok []) ∧
    (∀ window idx, extSearch buf width (generatePixelPairs locationKey width height)
        window idx 100 =
      extSearch buf width ((generatePixelPairs locationKey width height).take (idx + 100))
        window idx 100) := by
  have h1 : decodePVDLocationBased buf locationKey width height = [] := by
    simp only [decodePVDLocationBased]
    split_ifs with hnil hv
    · rfl
    · rw [hheader] at hv
      exact absurd hv (by simp)
    · rw [hsearch]
  refine ⟨h1, ?_, ?_⟩
  · intro hw hh hkey
    simp only [decodeMessage]
    rw [if_neg hkey, if_neg (by omega), h1]
    rfl
  · intro window idx
    exact extSearch_take buf width _ 100 window idx (idx + 100) (by omega)

/-- Witness for C8: on an all-zero 100×100 buffer (header match 8/16 < 75 %,
every probed window all-zero as well) decoding with key `"K"` returns the
empty string through `.ok`. -/
theorem c8_wrong_key_empty_result_witness :
    decodePVDLocationBased (fun _ => 0) [75] 100 100 = [] ∧
    decodeMessage (fun _ => 0) 100 100 [75] = .ok [] :=
  have h := c8_wrong_key_empty_result (fun _ => 0) [75] 100 100 (by decide) (by decide)
  ⟨h.1, h.2.1 (by omega) (by omega) (by decide)⟩

set_option maxHeartbeats 4000000 in
/-- C1 counterexample: the uniform all-black 100×100 RGBA image, ASCII
message `"A"` and key `"K"`.  The framed payload (104 bits) is well within
90 % of the estimated capacity (≈7500 bits) and the encode step succeeds,
but every pixel pair is `(0,0)` and the clamp at pixel value 0 corrupts
each embedded chunk (`embedInPixelPair` cannot lower `pixel2` below 0), so
header validation fails on decode, the extended search finds no valid
window, and the round trip returns the empty string instead of `"A"`. -/
theorem c1_round_trip_counterexample :
    roundTrip (fun _ => 0) 100 100 [65] [75] = some [] ∧ ([] : Str) ≠ [65] := by
  constructor
  · decide
  · decide

set_option maxHeartbeats 4000000 in
/-- C1 (amended): the round trip is guaranteed only in the absence of
clamping during embedding; e.g. on the uniform mid-gray (128) 100×100 RGBA
image — where every adjustment stays inside `[0,255]` — encoding the
message `"A"` with key `"K"` and decoding with the same key returns exactly
`"A"`. -/
theorem c1_round_trip_no_clamping :
    roundTrip (fun _ => 128) 100 100 [65] [75] = some [65] := by decide
